import Mathlib

/-!
Verification development for the graph-gophers/dataloader batching engine.

The definitions below are a shallow embedding of `dataloader.go`, `key.go`
and the thunk closure of `Loader.Load`.  Concurrency is modelled by the
sequential interleaving in which the back-to-back callers of `Load` issue
their requests within one wait window; the timer / forced-dispatch events
are explicit transitions (`windowEnd`, and the forced dispatch inside
`load`).  Go's `interface{}` values are a type parameter `V`, a Go `error`
is `Option String`, and a nil-able value is `Option V`.
-/

namespace Dataloader

/-- Embeds `Result` (dataloader.go:34-37): `Data interface{}` (nil-able,
hence `Option V`) plus `Error error`. -/
structure GoResult (V : Type) where
  data : Option V
  error : Option String
deriving DecidableEq, Repr

/-- The type of the user supplied batch function `BatchFunc`
(dataloader.go:30): given the ordered keys it returns ordered results. -/
def BatchFn (V : Type) := List String → List (GoResult V)

/-- State of one `Loader` (dataloader.go:47-76), with the bookkeeping made
explicit: thunks are identified by the order of their creation (`nextId`),
`queue` is the content of the `input` channel of the currently collecting
window (each entry a `batchRequest`: key plus the channel, stood for by the
thunk id), `batchCalls` records every argument list ever passed to the
batch function, and `resolutions` records the `Result` delivered on each
request channel. -/
structure LoaderState (V : Type) where
  batchCap : Nat
  cache : List (String × Nat)
  nextId : Nat
  queue : List (String × Nat)
  count : Nat
  batching : Bool
  batchCalls : List (List String)
  resolutions : List (Nat × GoResult V)
deriving DecidableEq, Repr

/-- A freshly constructed loader, `NewBatchedLoader` (dataloader.go:132-155)
with the given `WithBatchCapacity` value (`0` means unbounded). -/
def initLoader (V : Type) (cap : Nat) : LoaderState V :=
  { batchCap := cap, cache := [], nextId := 0, queue := [], count := 0,
    batching := false, batchCalls := [], resolutions := [] }

/-- One dispatch of `Loader.batch` (dataloader.go:297-314) on the sealed
window: the drained keys are passed once to the batch function and the
results are delivered positionally to the pending requests; the sealing
performed by `sleeper` (dataloader.go:326-330) empties the window and
resets the `batching` flag.  This is the successful delivery path, in
which the batch function honours the length contract; the crashing
behaviours of the same loop are embedded separately in `batchDeliver`. -/
def dispatch {V : Type} (f : BatchFn V) (s : LoaderState V) : LoaderState V :=
  { s with
    batchCalls := s.batchCalls ++ [s.queue.map Prod.fst],
    resolutions := s.resolutions ++ (s.queue.map Prod.snd).zip (f (s.queue.map Prod.fst)),
    queue := [],
    batching := false }

/-- `Loader.Load` (dataloader.go:158-218).  Under `cacheLock`, a cache hit
returns the existing thunk unchanged; a miss creates a fresh thunk, caches
it before enqueuing, opens the collecting window if none is active,
enqueues the `batchRequest`, and, when a positive batch capacity is
configured, increments the (never reset) counter and forces an immediate
dispatch exactly when the counter equals the capacity
(dataloader.go:205-215). -/
def load {V : Type} (f : BatchFn V) (k : String) (s : LoaderState V) :
    Nat × LoaderState V :=
  match s.cache.lookup k with
  | some t => (t, s)
  | none =>
    let t := s.nextId
    let s1 : LoaderState V :=
      { s with cache := (k, t) :: s.cache, nextId := t + 1,
               batching := true, queue := s.queue ++ [(k, t)] }
    if s1.batchCap > 0 then
      let s2 := { s1 with count := s1.count + 1 }
      if s2.count = s2.batchCap then (t, dispatch f s2) else (t, s2)
    else (t, s1)

/-- The wait timer of `Loader.sleeper` (dataloader.go:317-331) elapsing: if
a window is collecting it is sealed and dispatched, otherwise nothing
happens. -/
def windowEnd {V : Type} (f : BatchFn V) (s : LoaderState V) : LoaderState V :=
  if s.batching then dispatch f s else s

/-- `Loader.Prime` (dataloader.go:283-294): only when no cache entry exists
for the key, a pre-resolved thunk returning `Result{Data: value, Error: nil}`
is stored; nothing is enqueued. -/
def prime {V : Type} (k : String) (v : V) (s : LoaderState V) : LoaderState V :=
  match s.cache.lookup k with
  | some _ => s
  | none =>
    { s with cache := (k, s.nextId) :: s.cache,
             resolutions := s.resolutions ++ [(s.nextId, ⟨some v, none⟩)],
             nextId := s.nextId + 1 }

/-- `Loader.Clear` (dataloader.go:269-272): removes the cache entry for the
key (Go's `map` delete, modelled as dropping every binding of the key) and
returns the loader for chaining. -/
def clearKey {V : Type} (k : String) (s : LoaderState V) : LoaderState V :=
  { s with cache := s.cache.filter (fun p => p.1 != k) }

/-- `Loader.ClearAll` (dataloader.go:276-279). -/
def clearAll {V : Type} (s : LoaderState V) : LoaderState V :=
  { s with cache := [] }

/-- Invoking the thunk of request `t` once its window has dispatched:
the `Result` delivered on its channel, if any. -/
def resolve {V : Type} (s : LoaderState V) (t : Nat) : Option (GoResult V) :=
  s.resolutions.lookup t

/-- The per-key `Load` calls issued by `Loader.LoadMany`
(dataloader.go:228-239), in index order, collecting the thunk of each key;
also the shape of any sequence of back-to-back `Load` calls. -/
def loadManyIds {V : Type} (f : BatchFn V) (keys : List String)
    (s : LoaderState V) : List Nat × LoaderState V :=
  match keys with
  | [] => ([], s)
  | k :: rest =>
    let r := load f k s
    let rr := loadManyIds f rest r.2
    (r.1 :: rr.1, rr.2)

/-- Waiting on every thunk of a `LoadMany` (the `sync.WaitGroup` barrier,
dataloader.go:241-245): `none` while any thunk is still blocked. -/
def resolveAll {V : Type} (s : LoaderState V) : List Nat → Option (List (GoResult V))
  | [] => some []
  | t :: ts =>
    match resolve s t, resolveAll s ts with
    | some r, some rs => some (r :: rs)
    | _, _ => none

/-- Embeds `ResultMany` (dataloader.go:41-44): position-aligned data plus
the `resultError` entries `(error, index)` (dataloader.go:94-97). -/
structure ResultManyModel (V : Type) where
  data : List (Option V)
  errors : List (String × Nat)
deriving DecidableEq, Repr

/-- The combined result produced by `LoadMany`'s worker loop
(dataloader.go:229-245): `data[i]` receives the `Data` of key `i`'s result
and an `(error, index)` pair is collected for every erroring key. -/
def resultMany {V : Type} (s : LoaderState V) (tids : List Nat) :
    Option (ResultManyModel V) :=
  match resolveAll s tids with
  | none => none
  | some rs =>
    some { data := rs.map (·.data),
           errors := rs.enum.filterMap fun p => p.2.error.map fun e => (e, p.1) }

/-- State of the closure returned by `Load` (dataloader.go:159-183): the
private single-slot result channel `c` (`chan` holds the value sent by the
dispatch and not yet received; the channel is closed right after the send)
and the memoized `result.value`. -/
structure ThunkState (V : Type) where
  chan : Option (GoResult V)
  value : Option (GoResult V)
deriving DecidableEq, Repr

/-- One invocation of the thunk closure (dataloader.go:172-183): when
`result.value` is already set it is returned unchanged; otherwise the call
receives from the channel, memoizes the value and returns it; with no
value delivered yet the receive blocks (`none`). -/
def thunkCall {V : Type} (t : ThunkState V) : Option (GoResult V × ThunkState V) :=
  match t.value with
  | some v => some (v, t)
  | none =>
    match t.chan with
    | some v => some (v, { chan := none, value := some v })
    | none => none

/-- `n` successive invocations of one thunk, collecting the returned
results; blocks (`none`) as soon as one invocation would block. -/
def thunkCallN {V : Type} : Nat → ThunkState V → Option (List (GoResult V) × ThunkState V)
  | 0, t => some ([], t)
  | n + 1, t =>
    match thunkCall t with
    | none => none
    | some (v, t1) =>
      match thunkCallN n t1 with
      | none => none
      | some (vs, t2) => some (v :: vs, t2)

/-- The two ways the delivery loop of `Loader.batch` (dataloader.go:308-313)
can die: an unrecovered panic raised inside the batch function itself, or
the `items[i]` index-out-of-range panic when the batch function returned
fewer results than there are pending requests. -/
inductive GoPanic where
  | userPanic (msg : String)
  | indexOutOfRange
deriving DecidableEq, Repr

/-- Behaviour of one batch-function call: it either returns its result
list or panics with a message. -/
inductive BatchOutcome (V : Type) where
  | ok (items : List (GoResult V))
  | panicked (msg : String)
deriving DecidableEq, Repr

/-- Exact embedding of `items := l.batchFn(keys)` followed by the delivery
loop of `Loader.batch` (dataloader.go:308-313).  No `recover` surrounds the
call, so a panic in the batch function escapes the dispatch goroutine
(`.error (.userPanic msg)`); when fewer results than requests come back,
`items[i]` panics with an index-out-of-range (`.error .indexOutOfRange`);
otherwise result `i` is sent on request `i`'s channel (surplus results are
silently ignored by the loop over `reqs`). -/
def batchDeliver {V : Type} (o : BatchOutcome V) (reqs : List (String × Nat)) :
    Except GoPanic (List (Nat × GoResult V)) :=
  match o with
  | .panicked msg => .error (.userPanic msg)
  | .ok items =>
    if reqs.length ≤ items.length then
      .ok ((reqs.map Prod.snd).zip items)
    else
      .error .indexOutOfRange

/-- Embeds the `Key` interface (key.go:3-9) at its only implementation in
the repository, `StringKey` (key.go:23-30). -/
inductive KeyVal where
  | stringKey (s : String)
deriving DecidableEq, Repr

/-- `StringKey.Key` (key.go:27): the identity projection. -/
def KeyVal.Key : KeyVal → String
  | .stringKey s => s

/-- `Keys` (key.go:12): an ordered list of keys. -/
def KeysList := List KeyVal

/-- `Keys.Keys` (key.go:15-21): the list of string projections, one per key. -/
def KeysList.Keys (l : KeysList) : List String :=
  l.map KeyVal.Key

/-- `NewKeysFromStrings` (key.go:33-39): wraps each string as a `StringKey`. -/
def NewKeysFromStrings (ss : List String) : KeysList :=
  ss.map KeyVal.stringKey

/-- The identity batch function of the repository's tests (`IDLoader`):
resolves every key to itself with no error. -/
def fIdent : BatchFn String :=
  fun ks => ks.map fun k => ⟨some k, none⟩

/-- A batch function failing exactly on the key `"a"`, used to witness the
error aggregation of `LoadMany`. -/
def fErr : BatchFn String :=
  fun ks => ks.map fun k => if k = "a" then ⟨none, some "boom"⟩ else ⟨some k, none⟩

section Lemmas

variable {V : Type}

lemma lookup_cons_self {α β : Type} [BEq α] [LawfulBEq α] (a : α) (b : β)
    (l : List (α × β)) : List.lookup a ((a, b) :: l) = some b := by
  simp [List.lookup]

lemma lookup_cons_ne {α β : Type} [BEq α] [LawfulBEq α] (a k : α) (b : β)
    (l : List (α × β)) (h : a ≠ k) :
    List.lookup a ((k, b) :: l) = List.lookup a l := by
  simp [List.lookup, beq_eq_false_iff_ne.mpr h]

lemma lookup_filter_bne {β : Type} (k : String) (l : List (String × β)) :
    List.lookup k (l.filter fun p => p.1 != k) = none := by
  induction l with
  | nil => rfl
  | cons p rest ih =>
    obtain ⟨a, b⟩ := p
    rcases eq_or_ne a k with h | h
    · subst h
      simpa [List.filter_cons] using ih
    · have hb : ((a, b).1 != k) = true := by simpa [bne] using h
      rw [List.filter_cons, if_pos hb, lookup_cons_ne k a b _ (Ne.symm h)]
      exact ih

/-- Issuing back-to-back `Load`s for pairwise fresh keys on a loader with
unbounded capacity: each key gets the next thunk id and is appended to the
current window, and the window is collecting afterwards. -/
lemma loadManyIds_fresh (f : BatchFn V) (keys : List String) (s : LoaderState V)
    (hcap : s.batchCap = 0) (hnd : keys.Nodup)
    (hfresh : ∀ k ∈ keys, s.cache.lookup k = none) :
    loadManyIds f keys s =
      (List.range' s.nextId keys.length,
       { s with
         cache := (keys.zip (List.range' s.nextId keys.length)).reverse ++ s.cache,
         nextId := s.nextId + keys.length,
         queue := s.queue ++ keys.zip (List.range' s.nextId keys.length),
         batching := s.batching || !keys.isEmpty }) := by
  induction keys generalizing s with
  | nil =>
    simp [loadManyIds, List.range']
  | cons k rest ih =>
    obtain ⟨hknotmem, hndrest⟩ := List.nodup_cons.mp hnd
    have hk : s.cache.lookup k = none := hfresh k (List.mem_cons_self k rest)
    have hload : load f k s =
        (s.nextId,
         { s with cache := (k, s.nextId) :: s.cache, nextId := s.nextId + 1,
                  batching := true, queue := s.queue ++ [(k, s.nextId)] }) := by
      simp [load, hk, hcap]
    have hfresh1 : ∀ k' ∈ rest, ((k, s.nextId) :: s.cache).lookup k' = none := by
      intro k' hk'
      have hne : k' ≠ k := fun h => hknotmem (h ▸ hk')
      rw [lookup_cons_ne k' k s.nextId s.cache hne]
      exact hfresh k' (List.mem_cons_of_mem k hk')
    have hih := ih
      { s with cache := (k, s.nextId) :: s.cache, nextId := s.nextId + 1,
               batching := true, queue := s.queue ++ [(k, s.nextId)] }
      hcap hndrest hfresh1
    rw [show loadManyIds f (k :: rest) s
        = ((load f k s).1 :: (loadManyIds f rest (load f k s).2).1,
           (loadManyIds f rest (load f k s).2).2) from rfl, hload]
    dsimp only
    rw [hih]
    dsimp only
    simp only [Prod.mk.injEq, LoaderState.mk.injEq, List.length_cons, List.range'_succ,
      List.zip_cons_cons, List.reverse_cons, List.append_assoc, List.singleton_append,
      List.cons_append, List.isEmpty_cons, Bool.not_false, Bool.or_true, Bool.true_or,
      List.nil_append, List.append_nil, eq_self_iff_true, and_true, true_and]
    omega

lemma resolveAll_congr (s s' : LoaderState V) (ts : List Nat)
    (h : ∀ t ∈ ts, resolve s t = resolve s' t) :
    resolveAll s ts = resolveAll s' ts := by
  induction ts with
  | nil => rfl
  | cons t ts ih =>
    have h1 := h t (List.mem_cons_self t ts)
    have h2 := ih fun u hu => h u (List.mem_cons_of_mem t hu)
    simp only [resolveAll, h1, h2]

/-- When the delivered results are exactly the positional zip of the thunk
ids with the batch output, waiting on all thunks yields the batch output. -/
lemma resolveAll_zip_range' (rs : List (GoResult V)) :
    ∀ (a : Nat) (s : LoaderState V),
      s.resolutions = (List.range' a rs.length).zip rs →
      resolveAll s (List.range' a rs.length) = some rs := by
  induction rs with
  | nil =>
    intro a s _
    simp [List.range', resolveAll]
  | cons r rest ih =>
    intro a s hres
    rw [List.length_cons, List.range'_succ, List.zip_cons_cons] at hres
    rw [List.length_cons, List.range'_succ]
    have hhead : resolve s a = some r := by
      rw [resolve, hres]
      exact lookup_cons_self a r _
    have htail : resolveAll s (List.range' (a + 1) rest.length)
        = resolveAll { s with resolutions := (List.range' (a + 1) rest.length).zip rest }
            (List.range' (a + 1) rest.length) := by
      apply resolveAll_congr
      intro t ht
      have hta : t ≠ a := by
        have := (List.mem_range'_1.mp ht).1
        omega
      rw [resolve, hres, lookup_cons_ne t a r _ hta]
      rfl
    have hrest := ih (a + 1)
      { s with resolutions := (List.range' (a + 1) rest.length).zip rest } rfl
    simp only [resolveAll, hhead, htail, hrest]

lemma resolveAll_zip_range'_len (rs : List (GoResult V)) (n a : Nat)
    (hn : rs.length = n) (s : LoaderState V)
    (hres : s.resolutions = (List.range' a n).zip rs) :
    resolveAll s (List.range' a n) = some rs := by
  subst hn
  exact resolveAll_zip_range' rs a s hres

/-- The thunk ids handed out for fresh keys on a fresh loader are the
first `keys.length` naturals, in order. -/
lemma loadManyIds_fst (f : BatchFn V) (keys : List String) (hnd : keys.Nodup) :
    (loadManyIds f keys (initLoader V 0)).1 = List.range' 0 keys.length := by
  rw [loadManyIds_fresh f keys (initLoader V 0) rfl hnd (fun k _ => rfl)]
  rfl

/-- End-of-window state after back-to-back fresh `Load`s on a fresh
unbounded loader: a single dispatch with exactly the loaded keys, whose
results are delivered positionally to the handed-out thunk ids. -/
lemma windowEnd_loadManyIds (f : BatchFn V) (keys : List String)
    (hnd : keys.Nodup) (hne : keys ≠ []) :
    windowEnd f (loadManyIds f keys (initLoader V 0)).2 =
      { batchCap := 0,
        cache := (keys.zip (List.range' 0 keys.length)).reverse,
        nextId := keys.length,
        queue := [],
        count := 0,
        batching := false,
        batchCalls := [keys],
        resolutions := (List.range' 0 keys.length).zip (f keys) } := by
  have hb : (!keys.isEmpty) = true := by
    cases keys with
    | nil => exact absurd rfl hne
    | cons a l => rfl
  have hfst : (keys.zip (List.range' 0 keys.length)).map Prod.fst = keys :=
    List.map_fst_zip _ _ (by simp [List.length_range'])
  have hsnd : (keys.zip (List.range' 0 keys.length)).map Prod.snd
      = List.range' 0 keys.length :=
    List.map_snd_zip _ _ (by simp [List.length_range'])
  rw [loadManyIds_fresh f keys (initLoader V 0) rfl hnd (fun k _ => rfl)]
  simp [initLoader, windowEnd, dispatch, hb, hfst, hsnd]

end Lemmas

section Claims

/-- Claim C1: for every set of N back-to-back `Load` calls with pairwise
distinct keys issued inside a single wait window (default unbounded batch
capacity), the batch function is invoked exactly once for that window,
and its argument list contains exactly those N keys in enqueue order. -/
theorem batch_invoked_once {V : Type} (f : BatchFn V) (keys : List String)
    (hnd : keys.Nodup) (hne : keys ≠ []) :
    (windowEnd f (loadManyIds f keys (initLoader V 0)).2).batchCalls = [keys] := by
  rw [windowEnd_loadManyIds f keys hnd hne]

/-- Concrete run of `batch_invoked_once`: three distinct keys dispatched
as one batch. -/
theorem batch_invoked_once_witness :
    (["1", "2", "3"] : List String).Nodup ∧
    (windowEnd fIdent (loadManyIds fIdent ["1", "2", "3"] (initLoader String 0)).2).batchCalls
      = [["1", "2", "3"]] :=
  ⟨by decide, batch_invoked_once fIdent ["1", "2", "3"] (by decide) (by decide)⟩

/-- Claim C6: a thunk that has resolved to a `Result` returns that same
`Result` on every subsequent invocation, any number of times, without
re-resolving (its memoized state is left untouched). -/
theorem thunk_resolved_idempotent {V : Type} (ch : Option (GoResult V))
    (r : GoResult V) (n : Nat) :
    thunkCallN n ⟨ch, some r⟩ = some (List.replicate n r, ⟨ch, some r⟩) := by
  induction n with
  | zero => rfl
  | succ n ih => simp [thunkCallN, thunkCall, ih, List.replicate_succ]

/-- Claim C10: converting strings to `Keys` with `NewKeysFromStrings` and
projecting back with `Keys.Keys` returns the original string list. -/
theorem newKeysFromStrings_roundtrip (ss : List String) :
    (NewKeysFromStrings ss).Keys = ss := by
  induction ss with
  | nil => rfl
  | cons a l ih =>
    simpa [NewKeysFromStrings, KeysList.Keys, KeyVal.Key] using ih

/-- Claim C2 (code bug): `Loader.batch` (dataloader.go:297-314) contains
no `recover`, so a panic inside the batch function escapes the dispatch
goroutine: no pending request of the window receives any `Result` and the
claimed "Panic received in batch function: <message>" error is never
delivered (the repository's own panic-safety test in dataloader_test.go
expects exactly that delivery).  Evaluated at the test's input: one
pending request for key "1", a batch function panicking with
"Programming error". -/
theorem batch_panic_escapes :
    batchDeliver (BatchOutcome.panicked "Programming error" : BatchOutcome String)
        [("1", 0)]
      = Except.error (GoPanic.userPanic "Programming error") := rfl

/-- Claim C3 (code bug): when the batch function returns fewer results
than pending requests (here 9 results for 10 requests, the repository's
`FaultyLoader` test input), the delivery loop of `Loader.batch` indexes
`items[i]` past the end and panics with an index-out-of-range: no pending
request receives an error `Result`, contradicting the claim and the
"number of results matches number of keys" test. -/
theorem batch_mismatch_crashes :
    batchDeliver
        (BatchOutcome.ok (((List.range 9).map
          fun i => (⟨some (toString i), none⟩ : GoResult String))))
        ((List.range 10).map fun i => (toString i, i))
      = Except.error GoPanic.indexOutOfRange := by
  rfl

/-- Claim C5 (code bug): with batch capacity 2 and five back-to-back
`Load`s of distinct keys, the loader dispatches only twice — `["1","2"]`
forced when `count` reaches the capacity, then `["3","4","5"]` on the
wait timer — because `count` is never reset after a forced dispatch
(dataloader.go:205-215, 317-331), so the second window collects 3 > 2
keys and the claimed ⌈5/2⌉ = 3 invocations of at most 2 keys each do not
happen. -/
theorem batchCap_window_overflow :
    (windowEnd fIdent
        (loadManyIds fIdent ["1", "2", "3", "4", "5"] (initLoader String 2)).2).batchCalls
      = [["1", "2"], ["3", "4", "5"]] := by
  rfl

/-- Claim C4: two `Load` calls for the same key within one window share
the thunk: the second call returns the first call's thunk and leaves the
loader unchanged (so at most one `batchRequest` for the key is enqueued);
from a fresh loader the dispatched argument list contains the key exactly
once; and both thunk invocations read the identical delivered `Result`. -/
theorem load_same_key_shared {V : Type} (f : BatchFn V) (k : String) :
    (∀ s : LoaderState V,
        (load f k (load f k s).2).1 = (load f k s).1 ∧
        (load f k (load f k s).2).2 = (load f k s).2) ∧
    (windowEnd f (load f k (load f k (initLoader V 0)).2).2).batchCalls = [[k]] ∧
    resolve (windowEnd f (load f k (load f k (initLoader V 0)).2).2)
        (load f k (load f k (initLoader V 0)).2).1
      = resolve (windowEnd f (load f k (load f k (initLoader V 0)).2).2)
        (load f k (initLoader V 0)).1 := by
  have hkey : ∀ s : LoaderState V,
      (load f k s).2.cache.lookup k = some (load f k s).1 := by
    intro s
    rcases hc : s.cache.lookup k with _ | t
    · simp only [load, hc]
      split
      · split
        · simp [dispatch, lookup_cons_self]
        · simp [lookup_cons_self]
      · simp [lookup_cons_self]
    · simp [load, hc]
  have hhit : ∀ (S : LoaderState V) (T : Nat), S.cache.lookup k = some T →
      load f k S = (T, S) := by
    intro S T h
    simp [load, h]
  have hdup : ∀ s : LoaderState V,
      load f k (load f k s).2 = ((load f k s).1, (load f k s).2) :=
    fun s => hhit _ _ (hkey s)
  refine ⟨fun s => ⟨congrArg Prod.fst (hdup s), congrArg Prod.snd (hdup s)⟩, ?_, ?_⟩
  · rw [congrArg Prod.snd (hdup (initLoader V 0))]
    rw [show (load f k (initLoader V 0)).2 = (loadManyIds f [k] (initLoader V 0)).2 from rfl,
      windowEnd_loadManyIds f [k] (by simp) (by simp)]
  · rw [congrArg Prod.fst (hdup (initLoader V 0))]

/-- Claim C7: `Prime(k, v)` followed immediately by `Load(k)` leaves the
loader untouched (nothing is enqueued, the batch function is never
invoked for `k`) and the returned thunk resolves to `Result{Data: v,
Error: nil}`; moreover `Prime` never overwrites an existing pending or
resolved cache entry. -/
theorem prime_then_load_cached {V : Type} (f : BatchFn V) (k : String) (v : V) :
    (load f k (prime k v (initLoader V 0))).2 = prime k v (initLoader V 0) ∧
    resolve (load f k (prime k v (initLoader V 0))).2
        (load f k (prime k v (initLoader V 0))).1 = some ⟨some v, none⟩ ∧
    (load f k (prime k v (initLoader V 0))).2.batchCalls = [] ∧
    (load f k (prime k v (initLoader V 0))).2.queue = [] ∧
    (∀ (s : LoaderState V) (k' : String) (v' : V) (t : Nat),
        s.cache.lookup k' = some t → prime k' v' s = s) := by
  have hp : prime k v (initLoader V 0) =
      { initLoader V 0 with
        cache := [(k, 0)],
        resolutions := [(0, ⟨some v, none⟩)],
        nextId := 1 } := by
    simp [prime, initLoader]
  have hl : load f k (prime k v (initLoader V 0)) =
      (0, prime k v (initLoader V 0)) := by
    rw [hp]
    simp [load, lookup_cons_self]
  refine ⟨by rw [hl], ?_, ?_, ?_, ?_⟩
  · rw [hl, hp]
    simp [resolve, lookup_cons_self]
  · rw [hl, hp]
    rfl
  · rw [hl, hp]
    rfl
  · intro s k' v' t ht
    simp [prime, ht]

/-- Concrete run of `prime_then_load_cached`: a primed key resolves to the
primed value without batching, and re-priming an existing entry is a
no-op. -/
theorem prime_then_load_cached_witness :
    resolve (load fIdent "a" (prime "a" "v" (initLoader String 0))).2
        (load fIdent "a" (prime "a" "v" (initLoader String 0))).1
      = some ⟨some "v", none⟩ ∧
    prime "a" "w" (prime "a" "v" (initLoader String 0))
      = prime "a" "v" (initLoader String 0) :=
  ⟨(prime_then_load_cached fIdent "a" "v").2.1,
   (prime_then_load_cached fIdent "a" "v").2.2.2.2
     (prime "a" "v" (initLoader String 0)) "a" "w" 0 (by decide)⟩

/-- Claim C8: `Clear(k)` removes the cache entry for `k` (for any loader
state), and — `Clear` returning the loader for chaining — a `Load(k)`
chained after clearing a previously cached and resolved `k` misses the
cache, re-enqueues the key and makes the next dispatch invoke the batch
function for `k` a second time. -/
theorem clear_then_load_rebatches {V : Type} (f : BatchFn V) (k : String) :
    (∀ s : LoaderState V, (clearKey k s).cache.lookup k = none) ∧
    (windowEnd f (load f k (clearKey k
        (windowEnd f (load f k (initLoader V 0)).2))).2).batchCalls
      = [[k], [k]] := by
  constructor
  · intro s
    exact lookup_filter_bne k s.cache
  · have h1 : load f k (initLoader V 0) =
        (0, { initLoader V 0 with
              cache := [(k, 0)],
              nextId := 1,
              batching := true,
              queue := [(k, 0)] }) := by
      simp [load, initLoader]
    rw [h1]
    have h2 : windowEnd f
        ({ initLoader V 0 with
           cache := [(k, 0)],
           nextId := 1,
           batching := true,
           queue := [(k, 0)] } : LoaderState V) =
        { initLoader V 0 with
          cache := [(k, 0)],
          nextId := 1,
          batchCalls := [[k]],
          resolutions := [0].zip (f [k]) } := by
      simp [windowEnd, dispatch, initLoader]
    rw [h2]
    have h3 : clearKey k
        ({ initLoader V 0 with
           cache := [(k, 0)],
           nextId := 1,
           batchCalls := [[k]],
           resolutions := [0].zip (f [k]) } : LoaderState V) =
        { initLoader V 0 with
          nextId := 1,
          batchCalls := [[k]],
          resolutions := [0].zip (f [k]) } := by
      simp [clearKey, initLoader]
    rw [h3]
    have h4 : load f k
        ({ initLoader V 0 with
           nextId := 1,
           batchCalls := [[k]],
           resolutions := [0].zip (f [k]) } : LoaderState V) =
        (1, { initLoader V 0 with
              cache := [(k, 1)],
              nextId := 2,
              batching := true,
              queue := [(k, 1)],
              batchCalls := [[k]],
              resolutions := [0].zip (f [k]) }) := by
      simp [load, initLoader]
    rw [h4]
    simp [windowEnd, dispatch, initLoader]

/-- Claim C9: `LoadMany` over distinct keys with a length-honouring batch
function delivers, for every index, the batch result of that index's key
into that index's data slot, and collects exactly one `(error, index)`
entry for every key whose `Result` carried an error — later keys are not
short-circuited by an earlier error. -/
theorem loadMany_positional {V : Type} (f : BatchFn V) (keys : List String)
    (hnd : keys.Nodup) (hlen : ∀ ks, (f ks).length = ks.length) :
    resultMany (windowEnd f (loadManyIds f keys (initLoader V 0)).2)
        (loadManyIds f keys (initLoader V 0)).1
      = some { data := (f keys).map (·.data),
               errors := (f keys).enum.filterMap fun p => p.2.error.map fun e => (e, p.1) } := by
  cases hks : keys with
  | nil =>
    have h0 : f [] = [] := List.length_eq_zero.mp (hlen [])
    simp [loadManyIds, windowEnd, initLoader, resultMany, resolveAll, h0]
  | cons k0 rest =>
    rw [← hks]
    have hne : keys ≠ [] := by
      rw [hks]
      exact List.cons_ne_nil k0 rest
    rw [loadManyIds_fst f keys hnd, windowEnd_loadManyIds f keys hnd hne]
    have hres := resolveAll_zip_range'_len (f keys) keys.length 0 (hlen keys)
      { batchCap := 0,
        cache := (keys.zip (List.range' 0 keys.length)).reverse,
        nextId := keys.length,
        queue := [],
        count := 0,
        batching := false,
        batchCalls := [keys],
        resolutions := (List.range' 0 keys.length).zip (f keys) } rfl
    simp only [resultMany, hres]

/-- Concrete run of `loadMany_positional`: two keys, the first erroring;
the data slots stay aligned and exactly one indexed error is collected. -/
theorem loadMany_positional_witness :
    resultMany (windowEnd fErr (loadManyIds fErr ["a", "b"] (initLoader String 0)).2)
        (loadManyIds fErr ["a", "b"] (initLoader String 0)).1
      = some ⟨[none, some "b"], [("boom", 0)]⟩ := by
  rw [loadMany_positional fErr ["a", "b"] (by decide) (fun ks => by simp [fErr])]
  rfl

end Claims

end Dataloader
